import Mathlib

/-!
Verification of the logwatch client transport engine against its
natural-language specification.  All definitions below are shallow
embeddings of the Python source in `logwatch_client.py`: the HTTP
response classification, the SQLite-backed log queue operations, the
transport state machine of `LogUploader`, the resume protocol, and the
chunk collector that decodes child output as UTF-8 with replacement.
-/

/- ── HTTP transport classification (post_json_status_with_response /
     get_json_status, logwatch_client.py lines 725-764 and 813-841) ── -/

/-- The three request-status constants `POST_OK`, `POST_RETRYABLE_FAIL`,
`POST_TASK_DELETED` (lines 64-66). -/
inductive PostStatus where
  | ok
  | retryable_fail
  | task_deleted
deriving DecidableEq, Repr

/-- Outcome of one attempted HTTP request, as observed by the `try` block
of `post_json_status_with_response`: either a response with its status
code and (when `resp.json()` parses) a body, or a raised
`requests.RequestException` (connection error / timeout). -/
inductive HttpOutcome (α : Type) where
  | response (status : Nat) (body : Option α)
  | requestError
deriving DecidableEq, Repr

/-- `post_json_status_with_response` (lines 725-764): 409 is checked
first and classified `task_deleted`; a 2xx code is classified `ok` with
the best-effort parsed body; every other code is `retryable_fail`; a
`requests.RequestException` is `retryable_fail` with code 0. -/
def post_json_status_with_response {α : Type} :
    HttpOutcome α → PostStatus × Option α × Nat
  | .requestError => (.retryable_fail, none, 0)
  | .response code body =>
      if code = 409 then (.task_deleted, none, code)
      else if 200 ≤ code ∧ code < 300 then (.ok, body, code)
      else (.retryable_fail, none, code)

/-- `get_json_status` (lines 813-841) classifies responses with exactly
the same rule as the POST path. -/
def get_json_status {α : Type} : HttpOutcome α → PostStatus × Option α × Nat :=
  post_json_status_with_response

/- ── Durable log queue (class LogQueueStore, lines 855-1031) ──
The SQLite table `log_queue` is modelled as a list of rows in insertion
order; an SQL UPDATE is a `List.map` applying the SET clause to every
row matching the WHERE clause. -/

/-- The row status values `pending`, `sent`, `failed`, `archived`. -/
inductive RowStatus where
  | pending
  | sent
  | failed
  | archived
deriving DecidableEq, Repr

/-- One row of the `log_queue` table (schema at lines 874-889).
`content` is the decoded text, as a list of Unicode code points; the
timestamp columns are not modelled. -/
structure LogRow where
  task_id : String
  user_id : String
  client_seq : Int
  content : List Nat
  status : RowStatus
  retry_count : Nat
  last_error : Option String
deriving DecidableEq, Repr

/-- The `log_queue` table. -/
abbrev LogQueue := List LogRow

/-- `LogQueueStore.enqueue` (lines 910-930): `INSERT OR IGNORE` keyed on
the unique `(task_id, client_seq)`; a duplicate key leaves the table
unchanged, otherwise a fresh row is appended with `retry_count = 0` and
no `last_error`. -/
def enqueue (q : LogQueue) (task user : String) (seq : Int)
    (content : List Nat) (status : RowStatus) : LogQueue :=
  if q.any (fun r => r.task_id == task && r.client_seq == seq) then q
  else q ++ [⟨task, user, seq, content, status, 0, none⟩]

/-- `LogQueueStore.reconcile_with_server_ack` (lines 932-944): first
UPDATE sets `status='sent'` for every row of the task with
`client_seq <= last_ack_seq` (no status filter), then the second UPDATE
demotes rows of the task with `client_seq > last_ack_seq` and
`status='sent'` back to `pending`. -/
def reconcile_with_server_ack (q : LogQueue) (task : String) (ack : Int) :
    LogQueue :=
  (q.map fun r =>
      if r.task_id = task ∧ r.client_seq ≤ ack then
        { r with status := .sent }
      else r).map fun r =>
    if r.task_id = task ∧ r.client_seq > ack ∧ r.status = .sent then
      { r with status := .pending }
    else r

/-- `LogQueueStore.mark_sent_up_to` (lines 989-1001): sets `sent` and
clears `last_error` on rows of the task with `client_seq <= ack_seq`
whose status is `pending`, `failed` or `sent`. -/
def mark_sent_up_to (q : LogQueue) (task : String) (ack : Int) : LogQueue :=
  q.map fun r =>
    if r.task_id = task ∧ r.client_seq ≤ ack ∧
        (r.status = .pending ∨ r.status = .failed ∨ r.status = .sent) then
      { r with status := .sent, last_error := none }
    else r

/-- One UPDATE of the `executemany` in `LogQueueStore.mark_failed`
(lines 1003-1017): for a single `client_seq`, rows of the task with that
sequence and status `pending` become `failed`, with `retry_count`
incremented and `last_error` recorded. -/
def mark_failed_one (task err : String) (q : LogQueue) (seq : Int) : LogQueue :=
  q.map fun r =>
    if r.task_id = task ∧ r.client_seq = seq ∧ r.status = .pending then
      { r with status := .failed, retry_count := r.retry_count + 1,
               last_error := some err }
    else r

/-- `LogQueueStore.mark_failed` (lines 1003-1017): the `executemany`
runs the single-sequence UPDATE once per listed `client_seq`; an empty
list returns immediately. -/
def mark_failed (q : LogQueue) (task : String) (seqs : List Int)
    (err : String) : LogQueue :=
  seqs.foldl (mark_failed_one task err) q

/-- `LogQueueStore.reset_failed_to_pending` (lines 979-987). -/
def reset_failed_to_pending (q : LogQueue) (task : String) : LogQueue :=
  q.map fun r =>
    if r.task_id = task ∧ r.status = .failed then
      { r with status := .pending }
    else r

/-- `LogQueueStore.archive_task` (lines 1019-1031): rows of the task
with status `pending`, `failed` or `sent` become `archived`, with the
reason recorded in `last_error`. -/
def archive_task (q : LogQueue) (task reason : String) : LogQueue :=
  q.map fun r =>
    if r.task_id = task ∧
        (r.status = .pending ∨ r.status = .failed ∨ r.status = .sent) then
      { r with status := .archived, last_error := some reason }
    else r

/-- `SELECT COALESCE(MAX(client_seq), 0) ... WHERE task_id=?` used by
`LogQueueStore.get_next_seq` (lines 900-908). -/
def max_client_seq (q : LogQueue) (task : String) : Int :=
  match (q.filter fun r => r.task_id == task).map (fun r => r.client_seq) with
  | [] => 0
  | s :: rest => rest.foldl max s

/-- `LogQueueStore.get_next_seq` (lines 900-908): returns
`max(COALESCE(MAX(client_seq),0) + 1, min_value)`. -/
def get_next_seq (q : LogQueue) (task : String) (min_value : Int) : Int :=
  max (max_client_seq q task + 1) min_value

/- ── UTF-8 decoding with replacement (`chunk.decode("utf-8",
     errors="replace")` in LogUploader._collect_new_logs, line 1294) ──
Python's `replace` handler substitutes one U+FFFD per maximal subpart of
an ill-formed subsequence, which is exactly the WHATWG UTF-8 decode
algorithm.  The decoder below is that algorithm: a byte-at-a-time state
machine over the chunk. -/

/-- Decoder state: number of continuation bytes still needed, the code
point accumulated so far, and the admissible range for the next byte. -/
structure Utf8DecSt where
  needed : Nat
  cp : Nat
  lo : Nat
  hi : Nat
deriving DecidableEq, Repr

/-- The clean (between-characters) decoder state. -/
def utf8Clean : Utf8DecSt := ⟨0, 0, 0x80, 0xBF⟩

/-- Process one byte in the clean state: ASCII is emitted directly, a
lead byte opens a multi-byte sequence with the proper bounds for its
first continuation byte, and anything else yields one U+FFFD. -/
def utf8Begin (b : Nat) : List Nat × Utf8DecSt :=
  if b ≤ 0x7F then ([b], utf8Clean)
  else if 0xC2 ≤ b ∧ b ≤ 0xDF then ([], ⟨1, b - 0xC0, 0x80, 0xBF⟩)
  else if 0xE0 ≤ b ∧ b ≤ 0xEF then
    ([], ⟨2, b - 0xE0, if b = 0xE0 then 0xA0 else 0x80,
          if b = 0xED then 0x9F else 0xBF⟩)
  else if 0xF0 ≤ b ∧ b ≤ 0xF4 then
    ([], ⟨3, b - 0xF0, if b = 0xF0 then 0x90 else 0x80,
          if b = 0xF4 then 0x8F else 0xBF⟩)
  else ([0xFFFD], utf8Clean)

/-- Process one byte in an arbitrary decoder state.  A byte outside the
admissible continuation range emits U+FFFD for the broken sequence and
is then reprocessed in the clean state. -/
def utf8Step (st : Utf8DecSt) (b : Nat) : List Nat × Utf8DecSt :=
  if st.needed = 0 then utf8Begin b
  else if st.lo ≤ b ∧ b ≤ st.hi then
    if st.needed = 1 then ([st.cp * 64 + (b - 0x80)], utf8Clean)
    else ([], ⟨st.needed - 1, st.cp * 64 + (b - 0x80), 0x80, 0xBF⟩)
  else
    let r := utf8Begin b
    (0xFFFD :: r.1, r.2)

/-- Run the decoder over a byte list; a sequence left incomplete at the
end of the chunk emits one final U+FFFD. -/
def utf8Run : Utf8DecSt → List Nat → List Nat
  | st, [] => if st.needed = 0 then [] else [0xFFFD]
  | st, b :: rest =>
      let r := utf8Step st b
      r.1 ++ utf8Run r.2 rest

/-- `bytes.decode("utf-8", errors="replace")` on one chunk: run the
decoder from the clean state. -/
def utf8DecodeReplace (l : List Nat) : List Nat :=
  utf8Run utf8Clean l

/-- Byte lists that are concatenations of complete well-formed UTF-8
scalar encodings (the chunks whose decoding a stateless per-chunk
decoder handles losslessly). -/
inductive Utf8Seqs : List Nat → Prop
  | nil : Utf8Seqs []
  | one {b : Nat} {r : List Nat} :
      b ≤ 0x7F → Utf8Seqs r → Utf8Seqs (b :: r)
  | two {b c : Nat} {r : List Nat} :
      0xC2 ≤ b → b ≤ 0xDF → 0x80 ≤ c → c ≤ 0xBF →
      Utf8Seqs r → Utf8Seqs (b :: c :: r)
  | three {b c d : Nat} {r : List Nat} :
      0xE0 ≤ b → b ≤ 0xEF →
      (if b = 0xE0 then 0xA0 else 0x80) ≤ c →
      c ≤ (if b = 0xED then 0x9F else 0xBF) →
      0x80 ≤ d → d ≤ 0xBF →
      Utf8Seqs r → Utf8Seqs (b :: c :: d :: r)
  | four {b c d e : Nat} {r : List Nat} :
      0xF0 ≤ b → b ≤ 0xF4 →
      (if b = 0xF0 then 0x90 else 0x80) ≤ c →
      c ≤ (if b = 0xF4 then 0x8F else 0xBF) →
      0x80 ≤ d → d ≤ 0xBF → 0x80 ≤ e → e ≤ 0xBF →
      Utf8Seqs r → Utf8Seqs (b :: c :: d :: e :: r)

/- ── Chunk collector (LogUploader._collect_new_logs, lines 1281-1311) ──
Each call reads the bytes appended to the log file since the last
offset; a non-empty chunk is decoded with replacement and enqueued as
one row with the next `client_seq` (status `archived` when the
task-deleted event is set, else `pending`). -/

/-- The uploader fields touched by `_collect_new_logs`: `_next_seq`, the
`_task_deleted` event, and the queue. -/
structure CollectState where
  next_seq : Int
  task_deleted_ev : Bool
  queue : LogQueue
deriving Repr

/-- One `_collect_new_logs` call handed the chunk of newly appended
bytes (an empty chunk returns immediately). -/
def collect_new_logs (task user : String) (s : CollectState)
    (chunk : List Nat) : CollectState :=
  if chunk.isEmpty then s
  else
    { s with
      queue := enqueue s.queue task user s.next_seq (utf8DecodeReplace chunk)
        (if s.task_deleted_ev then .archived else .pending),
      next_seq := s.next_seq + 1 }

/-- Successive `_collect_new_logs` calls over a finite sequence of
chunks. -/
def collect_all (task user : String) (s : CollectState)
    (chunks : List (List Nat)) : CollectState :=
  chunks.foldl (collect_new_logs task user) s

/-- The collector state of a fresh uploader: `_next_seq = 1`, task not
deleted, empty queue. -/
def collectInit : CollectState := ⟨1, false, []⟩

/- ── Transport state machine (LogUploader, lines 1036-1279) ── -/

/-- The `TransportState` enum (lines 69-73). -/
inductive TransportState where
  | online
  | retrying
  | offline_giveup
  | task_deleted
deriving DecidableEq, Repr

/-- `RETRY_BACKOFF_BASE_SECONDS` (line 59). -/
def RETRY_BACKOFF_BASE_SECONDS : Nat := 5

/-- `RETRY_BACKOFF_MAX_SECONDS` (line 60). -/
def RETRY_BACKOFF_MAX_SECONDS : Nat := 60

/-- `UPLOAD_CIRCUIT_BREAK_MAX` (line 57), the default give-up
threshold. -/
def UPLOAD_CIRCUIT_BREAK_MAX : Nat := 5

/-- The `LogUploader` fields driven by transport classifications:
`_transport_state`, the three `threading.Event` flags kept in sync with
it (`_transient_offline`, `_offline`, `_task_deleted`), the give-up
counter `_circuit_count` and its bound `_circuit_max`, the retry backoff
and deadline, the last acknowledged sequence and `_next_seq`.  Time is
an abstract natural number. -/
structure UpState where
  transport : TransportState
  ev_transient : Bool
  ev_offline : Bool
  ev_deleted : Bool
  circuit_count : Nat
  circuit_max : Nat
  retry_backoff : Nat
  next_retry_at : Nat
  last_ack_seq : Int
  next_seq : Int
deriving DecidableEq, Repr

/-- The state of a freshly constructed `LogUploader` (lines 1064-1080):
online, no events set, zero failures, base backoff. -/
def initUpState (cmax : Nat) : UpState :=
  ⟨.online, false, false, false, 0, cmax,
   RETRY_BACKOFF_BASE_SECONDS, 0, 0, 1⟩

/-- `LogUploader._set_transport_state` (lines 1092-1100): returns the
old state and whether the transition was taken; a transition out of
`task_deleted` is rejected, as is a self-transition. -/
def set_transport_state (s : UpState) (new : TransportState) :
    TransportState × Bool × UpState :=
  if s.transport = .task_deleted ∧ new ≠ .task_deleted then
    (s.transport, false, s)
  else if s.transport = new then (s.transport, false, s)
  else (s.transport, true, { s with transport := new })

/-- `LogUploader._sync_state_events` (lines 1102-1118): sets the three
event flags according to the given state. -/
def sync_state_events (s : UpState) : TransportState → UpState
  | .online => { s with ev_transient := false, ev_offline := false,
                        ev_deleted := false }
  | .retrying => { s with ev_transient := true, ev_offline := false,
                          ev_deleted := false }
  | .offline_giveup => { s with ev_transient := true, ev_offline := true,
                                ev_deleted := false }
  | .task_deleted => { s with ev_transient := true, ev_offline := true,
                              ev_deleted := true }

/-- `LogUploader._mark_transport_success` (lines 1120-1127): attempts
the transition to `online`, then unconditionally syncs the events to
`online`, zeroes the give-up counter and the retry deadline, and resets
the backoff to base.  Note the event sync happens even when the
transition was rejected because the state is `task_deleted`. -/
def mark_transport_success (s : UpState) : UpState :=
  let r := set_transport_state s .online
  let s2 := sync_state_events r.2.2 .online
  { s2 with circuit_count := 0, next_retry_at := 0,
            retry_backoff := RETRY_BACKOFF_BASE_SECONDS }

/-- `LogUploader._enter_offline` (lines 1244-1250): transition to
`offline_giveup`; events are synced only when the transition was
taken. -/
def enter_offline (s : UpState) : UpState :=
  let r := set_transport_state s .offline_giveup
  if r.2.1 then sync_state_events r.2.2 .offline_giveup else r.2.2

/-- `LogUploader._mark_retryable_failure` (lines 1129-1143): a no-op in
`offline_giveup` or `task_deleted`; otherwise enters `retrying`, sets
the retry deadline to now plus the current backoff, doubles the backoff
up to the cap, and — only when the failure counts toward give-up —
increments the counter and enters `offline_giveup` once it reaches the
bound. -/
def mark_retryable_failure (now : Nat) (count_towards_giveup : Bool)
    (s : UpState) : UpState :=
  if s.transport = .offline_giveup ∨ s.transport = .task_deleted then s
  else
    let r := set_transport_state s .retrying
    let s2 := sync_state_events r.2.2 .retrying
    let s3 := { s2 with next_retry_at := now + s2.retry_backoff,
                        retry_backoff :=
                          min (s2.retry_backoff * 2) RETRY_BACKOFF_MAX_SECONDS }
    if !count_towards_giveup then s3
    else
      let s4 := { s3 with circuit_count := s3.circuit_count + 1 }
      if s4.circuit_count ≥ s4.circuit_max then enter_offline s4 else s4

/-- `LogUploader._abandon_task_push` (lines 1252-1261): transition to
`task_deleted`; when taken, the events are synced and all live rows of
the task are archived. -/
def abandon_task_push (s : UpState) (q : LogQueue) (task reason : String) :
    UpState × LogQueue :=
  let r := set_transport_state s .task_deleted
  if r.2.1 then
    (sync_state_events r.2.2 .task_deleted, archive_task q task reason)
  else (r.2.2, q)

/-- The transport classifications the state machine consumes, tagged by
their reporting call site: `_send_heartbeat` and `_resume_from_server_ack`
call `_mark_retryable_failure` with the give-up flag true (lines 1216,
1242), `_flush_batch` and `send_event` with it false (lines 1372, 1423);
any `ok` calls `_mark_transport_success`; any 409 calls
`_abandon_task_push`. -/
inductive TransportNotice where
  | heartbeat_failure (now : Nat)
  | resume_failure (now : Nat)
  | batch_upload_failure (now : Nat)
  | event_report_failure (now : Nat)
  | success
  | deleted_response
deriving DecidableEq, Repr

/-- Apply one transport notice to the uploader state and the queue. -/
def apply_notice (task : String) (sq : UpState × LogQueue) :
    TransportNotice → UpState × LogQueue
  | .heartbeat_failure now => (mark_retryable_failure now true sq.1, sq.2)
  | .resume_failure now => (mark_retryable_failure now true sq.1, sq.2)
  | .batch_upload_failure now => (mark_retryable_failure now false sq.1, sq.2)
  | .event_report_failure now => (mark_retryable_failure now false sq.1, sq.2)
  | .success => (mark_transport_success sq.1, sq.2)
  | .deleted_response => abandon_task_push sq.1 sq.2 task "task deleted"

/-- A sequence of transport notices applied in order. -/
def apply_notices (task : String) (sq : UpState × LogQueue)
    (ns : List TransportNotice) : UpState × LogQueue :=
  ns.foldl (apply_notice task) sq

/-- The gate at the top of `LogUploader._send_heartbeat` (lines
1221-1223): the heartbeat POST is issued exactly when the `_offline`
event is clear. -/
def send_heartbeat_issues_http (s : UpState) : Bool :=
  !s.ev_offline

/-- Whether `LogUploader._flush_batch` (lines 1313-1348) reaches its
POST: it returns without network work when the `_offline` or
`_task_deleted` event is set, when the retry deadline is in the future
(unless forced), when nothing is pending, or when an undersized batch
has not aged past the batch interval. -/
def flush_batch_issues_http (s : UpState) (now : Nat) (force : Bool)
    (pending_count : Nat) (pending_since : Nat)
    (batch_size batch_interval_ms : Nat) : Bool :=
  if s.ev_offline || s.ev_deleted then false
  else if !force && now < s.next_retry_at then false
  else if pending_count = 0 then false
  else if !force && pending_count < batch_size then
    let ps := if pending_since = 0 then now else pending_since
    if (now - ps) * 1000 < batch_interval_ms then false else true
  else true

/- ── Resume protocol (LogUploader._resume_from_server_ack,
     lines 1190-1219) ── -/

/-- The JSON body of the last-ACK endpoint: the `last_ack_seq` field
when present and integral (`int(... or 0)` turns a missing, falsy or
unparseable value into 0). -/
structure AckPayload where
  last_ack_seq : Option Int
deriving DecidableEq, Repr

/-- `int((payload or {}).get("last_ack_seq", 0) or 0)` with the
surrounding try/except (lines 1210-1213). -/
def extract_ack (body : Option AckPayload) : Int :=
  match body with
  | none => 0
  | some p => match p.last_ack_seq with
    | none => 0
    | some v => v

/-- The state update of `LogUploader._resume_from_server_ack` (lines
1205-1216) in the non-409 branches: on `ok` a success is marked and
`_last_ack_seq` is read from the payload; on a retryable outcome with a
code other than HTTP 404 a give-up-counting failure is marked; an HTTP
404 changes nothing (and `_last_ack_seq` keeps its startup value 0). -/
def resume_state (s : UpState) (status : PostStatus)
    (body : Option AckPayload) (code : Nat) (now : Nat) : UpState :=
  if status = .ok then
    { mark_transport_success s with last_ack_seq := extract_ack body }
  else if code ≠ 404 then mark_retryable_failure now true s
  else s

/-- The tail of `_resume_from_server_ack` after the classified GET: the
409 branch abandons the task; otherwise the state update above is
followed by `reconcile_with_server_ack` with `_last_ack_seq` and by
setting `_next_seq` from `get_next_seq` with minimum
`_last_ack_seq + 1`.  The third component records whether
`_mark_retryable_failure` was invoked. -/
def resume_apply (s : UpState) (q : LogQueue) (task : String)
    (status : PostStatus) (body : Option AckPayload) (code : Nat)
    (now : Nat) : UpState × LogQueue × Bool :=
  if status = .task_deleted then
    ((abandon_task_push s q task "task deleted: resume").1,
     (abandon_task_push s q task "task deleted: resume").2, false)
  else
    ({ resume_state s status body code now with
       next_seq := get_next_seq
         (reconcile_with_server_ack q task
           (resume_state s status body code now).last_ack_seq) task
         ((resume_state s status body code now).last_ack_seq + 1) },
     reconcile_with_server_ack q task
       (resume_state s status body code now).last_ack_seq,
     decide (status = .retryable_fail ∧ code ≠ 404))

/-- `LogUploader._resume_from_server_ack` (lines 1190-1219) given the
raw HTTP outcome of the GET: a no-op when already offline or
task-deleted, otherwise the classified response is handed to the steps
above. -/
def resume_from_server_ack (s : UpState) (q : LogQueue) (task : String)
    (outcome : HttpOutcome AckPayload) (now : Nat) :
    UpState × LogQueue × Bool :=
  if s.ev_offline || s.ev_deleted then (s, q, false)
  else
    resume_apply s q task (get_json_status outcome).1
      (get_json_status outcome).2.1 (get_json_status outcome).2.2 now

/- ════════════════════════ Theorems ════════════════════════ -/

/-- C1: every HTTP response of the transport POST is classified by
status code — 2xx yields `ok` with the best-effort body (its absence is
not a failure), 409 yields `task_deleted`, any other code and any
connection error or timeout yields `retryable_fail` — and every outcome
is classified as one of exactly these three values. -/
theorem transport_classification {α : Type} (code : Nat) (body : Option α) :
    ((200 ≤ code ∧ code < 300) →
      post_json_status_with_response (.response code body) =
        (.ok, body, code)) ∧
    (code = 409 →
      post_json_status_with_response (.response code body) =
        (.task_deleted, none, code)) ∧
    (¬(200 ≤ code ∧ code < 300) → code ≠ 409 →
      post_json_status_with_response (.response code body) =
        (.retryable_fail, none, code)) ∧
    (post_json_status_with_response (.requestError : HttpOutcome α) =
      (.retryable_fail, none, 0)) ∧
    (∀ o : HttpOutcome α,
      (post_json_status_with_response o).1 = .ok ∨
      (post_json_status_with_response o).1 = .task_deleted ∨
      (post_json_status_with_response o).1 = .retryable_fail) := by
  refine ⟨?_, ?_, ?_, rfl, ?_⟩
  · intro h
    simp only [post_json_status_with_response]
    rw [if_neg (by omega), if_pos h]
  · intro h
    simp only [post_json_status_with_response]
    rw [if_pos h]
  · intro h h409
    simp only [post_json_status_with_response]
    rw [if_neg h409, if_neg h]
  · intro o
    cases o with
    | requestError => right; right; rfl
    | response code body =>
        simp only [post_json_status_with_response]
        by_cases h409 : code = 409
        · rw [if_pos h409]; right; left; rfl
        · rw [if_neg h409]
          by_cases h2 : 200 ≤ code ∧ code < 300
          · rw [if_pos h2]; left; rfl
          · rw [if_neg h2]; right; right; rfl

/-- C1 witness: the classification evaluated at a 204 response with a
body, a 409 response, a 500 response, and a connection error. -/
theorem transport_classification_witness :
    post_json_status_with_response (.response 204 (some 7)) =
      ((.ok, some 7, 204) : PostStatus × Option Nat × Nat) ∧
    post_json_status_with_response (.response 409 (none : Option Nat)) =
      (.task_deleted, none, 409) ∧
    post_json_status_with_response (.response 500 (none : Option Nat)) =
      (.retryable_fail, none, 500) := by
  refine ⟨(transport_classification 204 (some 7)).1 (by omega),
          (transport_classification 409 none).2.1 rfl,
          (transport_classification 500 none).2.2.1 (by omega) (by omega)⟩

/-- Decoding one ASCII byte from the clean state. -/
theorem utf8Run_one (b : Nat) (t : List Nat) (h : b ≤ 0x7F) :
    utf8Run utf8Clean (b :: t) = b :: utf8Run utf8Clean t := by
  simp [utf8Run, utf8Step, utf8Begin, utf8Clean, h]

/-- Decoding one well-formed two-byte sequence from the clean state. -/
theorem utf8Run_two (b c : Nat) (t : List Nat) (h1 : 0xC2 ≤ b)
    (h2 : b ≤ 0xDF) (h3 : 0x80 ≤ c) (h4 : c ≤ 0xBF) :
    utf8Run utf8Clean (b :: c :: t) =
      ((b - 0xC0) * 64 + (c - 0x80)) :: utf8Run utf8Clean t := by
  have hb : ¬ b ≤ 0x7F := by omega
  simp [utf8Run, utf8Step, utf8Begin, utf8Clean, hb, h1, h2, h3, h4]

/-- Decoding one well-formed three-byte sequence from the clean state. -/
theorem utf8Run_three (b c d : Nat) (t : List Nat) (h1 : 0xE0 ≤ b)
    (h2 : b ≤ 0xEF) (h3 : (if b = 0xE0 then 0xA0 else 0x80) ≤ c)
    (h4 : c ≤ (if b = 0xED then 0x9F else 0xBF)) (h5 : 0x80 ≤ d)
    (h6 : d ≤ 0xBF) :
    utf8Run utf8Clean (b :: c :: d :: t) =
      (((b - 0xE0) * 64 + (c - 0x80)) * 64 + (d - 0x80)) ::
        utf8Run utf8Clean t := by
  have hb : ¬ b ≤ 0x7F := by omega
  have hb2 : ¬ b ≤ 0xDF := by omega
  simp [utf8Run, utf8Step, utf8Begin, utf8Clean, hb, hb2, h1, h2, h3, h4,
    h5, h6]

/-- Decoding one well-formed four-byte sequence from the clean state. -/
theorem utf8Run_four (b c d e : Nat) (t : List Nat) (h1 : 0xF0 ≤ b)
    (h2 : b ≤ 0xF4) (h3 : (if b = 0xF0 then 0x90 else 0x80) ≤ c)
    (h4 : c ≤ (if b = 0xF4 then 0x8F else 0xBF)) (h5 : 0x80 ≤ d)
    (h6 : d ≤ 0xBF) (h7 : 0x80 ≤ e) (h8 : e ≤ 0xBF) :
    utf8Run utf8Clean (b :: c :: d :: e :: t) =
      ((((b - 0xF0) * 64 + (c - 0x80)) * 64 + (d - 0x80)) * 64 + (e - 0x80)) ::
        utf8Run utf8Clean t := by
  have hb : ¬ b ≤ 0x7F := by omega
  have hb2 : ¬ b ≤ 0xDF := by omega
  have hb3 : ¬ b ≤ 0xEF := by omega
  simp [utf8Run, utf8Step, utf8Begin, utf8Clean, hb, hb2, hb3, h1, h2, h3,
    h4, h5, h6, h7, h8]

/-- Decoding distributes over an append whose first part is a
concatenation of complete UTF-8 scalar encodings. -/
theorem utf8DecodeReplace_append (l1 l2 : List Nat) (h : Utf8Seqs l1) :
    utf8DecodeReplace (l1 ++ l2) =
      utf8DecodeReplace l1 ++ utf8DecodeReplace l2 := by
  unfold utf8DecodeReplace
  induction h with
  | nil => rfl
  | one hb _ ih =>
      rw [List.cons_append, utf8Run_one _ _ hb, utf8Run_one _ _ hb, ih,
        List.cons_append]
  | two h1 h2 h3 h4 _ ih =>
      rw [List.cons_append, List.cons_append,
        utf8Run_two _ _ _ h1 h2 h3 h4, utf8Run_two _ _ _ h1 h2 h3 h4, ih,
        List.cons_append]
  | three h1 h2 h3 h4 h5 h6 _ ih =>
      rw [List.cons_append, List.cons_append, List.cons_append,
        utf8Run_three _ _ _ _ h1 h2 h3 h4 h5 h6,
        utf8Run_three _ _ _ _ h1 h2 h3 h4 h5 h6, ih, List.cons_append]
  | four h1 h2 h3 h4 h5 h6 h7 h8 _ ih =>
      rw [List.cons_append, List.cons_append, List.cons_append,
        List.cons_append, utf8Run_four _ _ _ _ _ h1 h2 h3 h4 h5 h6 h7 h8,
        utf8Run_four _ _ _ _ _ h1 h2 h3 h4 h5 h6 h7 h8, ih,
        List.cons_append]

/-- Decoding a flattened list of chunks that are each concatenations of
complete UTF-8 scalar encodings equals the flattened per-chunk
decodings. -/
theorem utf8DecodeReplace_flatten (chunks : List (List Nat))
    (h : ∀ c ∈ chunks, Utf8Seqs c) :
    utf8DecodeReplace chunks.flatten =
      (chunks.map utf8DecodeReplace).flatten := by
  induction chunks with
  | nil => rfl
  | cons c cs ih =>
      rw [List.flatten_cons, List.map_cons, List.flatten_cons,
        utf8DecodeReplace_append _ _ (h c (List.mem_cons_self c cs)),
        ih (fun x hx => h x (List.mem_cons_of_mem c hx))]

/-- When every queued row has a sequence below the inserted one, the
`INSERT OR IGNORE` of `enqueue` appends a fresh row. -/
theorem enqueue_fresh (q : LogQueue) (task user : String) (seq : Int)
    (content : List Nat) (st : RowStatus)
    (h : ∀ r ∈ q, r.client_seq < seq) :
    enqueue q task user seq content st =
      q ++ [⟨task, user, seq, content, st, 0, none⟩] := by
  unfold enqueue
  rw [if_neg]
  intro hc
  simp only [List.any_eq_true, Bool.and_eq_true, beq_iff_eq] at hc
  obtain ⟨r, hr, -, hrseq⟩ := hc
  have := h r hr
  omega

/-- Invariant characterisation of `collect_all`: over non-empty chunks
it appends one row per chunk holding the chunk's independent decoding,
with consecutive sequence numbers. -/
theorem collect_all_spec (task user : String) (chunks : List (List Nat))
    (h : ∀ c ∈ chunks, c ≠ []) (s : CollectState)
    (hdel : s.task_deleted_ev = false)
    (hseq : ∀ r ∈ s.queue, r.client_seq < s.next_seq)
    (hchain : List.Chain' (fun a b => a < b)
      (s.queue.map (fun r => r.client_seq))) :
    (collect_all task user s chunks).queue.map (fun r => r.content) =
      s.queue.map (fun r => r.content) ++ chunks.map utf8DecodeReplace ∧
    List.Chain' (fun a b => a < b)
      ((collect_all task user s chunks).queue.map (fun r => r.client_seq)) := by
  induction chunks generalizing s with
  | nil => exact ⟨(List.append_nil _).symm, hchain⟩
  | cons c cs ih =>
      have hc : ¬ c.isEmpty := by
        simpa [List.isEmpty_iff] using h c (List.mem_cons_self c cs)
      have hstep : collect_new_logs task user s c =
          { s with
            queue := s.queue ++
              [⟨task, user, s.next_seq, utf8DecodeReplace c, .pending, 0, none⟩],
            next_seq := s.next_seq + 1 } := by
        unfold collect_new_logs
        rw [if_neg hc, enqueue_fresh _ _ _ _ _ _ hseq]
        simp [hdel]
      have hcoll : collect_all task user s (c :: cs) =
          collect_all task user (collect_new_logs task user s c) cs := rfl
      rw [hcoll, hstep]
      have hseq' : ∀ r ∈ s.queue ++
          [(⟨task, user, s.next_seq, utf8DecodeReplace c, .pending, 0,
            none⟩ : LogRow)],
          r.client_seq < s.next_seq + 1 := by
        intro r hr
        rcases List.mem_append.mp hr with hr | hr
        · have := hseq r hr; omega
        · simp only [List.mem_singleton] at hr
          subst hr
          exact lt_add_one _
      have hchain' : List.Chain' (fun a b => a < b)
          ((s.queue ++
            [(⟨task, user, s.next_seq, utf8DecodeReplace c, .pending, 0,
              none⟩ : LogRow)]).map (fun r => r.client_seq)) := by
        rw [List.map_append, List.chain'_append]
        refine ⟨hchain, List.chain'_singleton _, ?_⟩
        intro x hx y hy
        simp at hy
        obtain ⟨hne, rfl⟩ := List.mem_getLast?_eq_getLast hx
        have hmem := List.getLast_mem hne
        simp only [List.mem_map] at hmem
        obtain ⟨r, hr, hrx⟩ := hmem
        have := hseq r hr
        subst hy
        omega
      obtain ⟨ih1, ih2⟩ := ih (fun x hx => h x (List.mem_cons_of_mem c hx))
        { s with
          queue := s.queue ++
            [⟨task, user, s.next_seq, utf8DecodeReplace c, .pending, 0, none⟩],
          next_seq := s.next_seq + 1 }
        hdel hseq' hchain'
      refine ⟨?_, ih2⟩
      rw [ih1]
      simp

/-- C2 counterexample: the byte stream `0xC3 0xA9` (UTF-8 for U+00E9)
written by the child and read by two successive `_collect_new_logs`
calls as the chunks `[0xC3]` and `[0xA9]` yields rows whose concatenated
content is two U+FFFD replacement characters, not the single code point
U+00E9 obtained by decoding the whole stream with replacement: the
claimed round-trip fails on chunk boundaries inside a multi-byte
character. -/
theorem collect_roundtrip_cex :
    ¬ (((collect_all "t" "u" collectInit [[0xC3], [0xA9]]).queue.map
          (fun r => r.content)).flatten =
        utf8DecodeReplace ([[0xC3], [0xA9]] : List (List Nat)).flatten) := by
  decide

/-- C2 (amended): for every byte stream written by the child and split
into non-empty chunks by successive `_collect_new_logs` calls, the
concatenation of the `content` fields of the enqueued rows in ascending
`client_seq` order equals decoding the stream as UTF-8 with replacement
provided no chunk boundary splits a multi-byte UTF-8 sequence — i.e.
each chunk is itself a concatenation of complete UTF-8 scalar
encodings.  (Each chunk is decoded independently, so a character split
across two reads is double-substituted, as the counterexample shows.) -/
theorem collect_roundtrip_amended (task user : String)
    (chunks : List (List Nat)) (h1 : ∀ c ∈ chunks, c ≠ [])
    (h2 : ∀ c ∈ chunks, Utf8Seqs c) :
    (((collect_all task user collectInit chunks).queue.map
        (fun r => r.content)).flatten =
      utf8DecodeReplace chunks.flatten) ∧
    List.Chain' (fun a b => a < b)
      ((collect_all task user collectInit chunks).queue.map
        (fun r => r.client_seq)) := by
  obtain ⟨hc, hchain⟩ := collect_all_spec task user chunks h1 collectInit rfl
    (by intro r hr; simp [collectInit] at hr) (by simp [collectInit])
  refine ⟨?_, hchain⟩
  rw [hc, utf8DecodeReplace_flatten chunks h2]
  simp [collectInit]

/-- C2 witness: the amended round-trip evaluated on the chunks
`"h"` and `"é"` (the latter a complete two-byte sequence). -/
theorem collect_roundtrip_amended_witness :
    ((collect_all "t" "u" collectInit [[0x68], [0xC3, 0xA9]]).queue.map
        (fun r => r.content)).flatten =
      utf8DecodeReplace ([[0x68], [0xC3, 0xA9]] : List (List Nat)).flatten := by
  refine (collect_roundtrip_amended "t" "u" [[0x68], [0xC3, 0xA9]] ?_ ?_).1
  · intro c hc
    rcases List.mem_cons.mp hc with h | h
    · subst h; simp
    · simp only [List.mem_singleton] at h; subst h; simp
  · intro c hc
    rcases List.mem_cons.mp hc with h | h
    · subst h
      exact Utf8Seqs.one (by omega) Utf8Seqs.nil
    · simp only [List.mem_singleton] at h
      subst h
      exact Utf8Seqs.two (by omega) (by omega) (by omega) (by omega)
        Utf8Seqs.nil

/-- A mapped UPDATE leaves a row unchanged at any position where the
mapped function fixes the row. -/
theorem map_getElem?_of_fix (f : LogRow → LogRow) (q : LogQueue) (i : Nat)
    (r : LogRow) (hr : q[i]? = some r) (hf : f r = r) :
    (q.map f)[i]? = some r := by
  rw [List.getElem?_map, hr]
  simp [hf]

/-- `mark_failed` leaves every non-`pending` row unchanged. -/
theorem mark_failed_fix_not_pending (q : LogQueue) (task err : String)
    (seqs : List Int) (i : Nat) (r : LogRow) (hr : q[i]? = some r)
    (h : r.status ≠ .pending) :
    (mark_failed q task seqs err)[i]? = some r := by
  induction seqs generalizing q with
  | nil => exact hr
  | cons s ss ih =>
      have hstep : (mark_failed_one task err q s)[i]? = some r := by
        apply map_getElem?_of_fix _ _ _ _ hr
        rw [if_neg]
        intro hc
        exact h hc.2.2
      exact ih _ hstep

/-- C3 counterexample: a queue holding a single `archived` row of task
`"t"` with `client_seq = 1`; `reconcile_with_server_ack "t" 1` changes
that row's status to `sent`, so `archived` is not terminal. -/
theorem archived_terminal_cex :
    (([(⟨"t", "u", 1, [], .archived, 0, none⟩ : LogRow)] : LogQueue).map
        (fun r => r.status) = [.archived]) ∧
    ((reconcile_with_server_ack
        [(⟨"t", "u", 1, [], .archived, 0, none⟩ : LogRow)] "t" 1).map
        (fun r => r.status) = [.sent]) := by
  decide

/-- C3 (amended): an `archived` row is never changed by `enqueue`,
`mark_sent_up_to`, `mark_failed`, `reset_failed_to_pending` or
`archive_task`; `reconcile_with_server_ack`, however, promotes every row
of the task with `client_seq ≤ last_ack_seq` to `sent` regardless of
status (as §4.B words it, "promotes all rows ≤ ack"), so an archived row
is preserved by it only when its `client_seq` exceeds the
acknowledgement. -/
theorem archived_terminal_amended (q : LogQueue)
    (task user err reason : String) (seq ack : Int) (seqs : List Int)
    (content : List Nat) (st : RowStatus) (i : Nat) (r : LogRow)
    (hr : q[i]? = some r) (h : r.status = .archived) :
    (enqueue q task user seq content st)[i]? = some r ∧
    (mark_sent_up_to q task ack)[i]? = some r ∧
    (mark_failed q task seqs err)[i]? = some r ∧
    (reset_failed_to_pending q task)[i]? = some r ∧
    (archive_task q task reason)[i]? = some r ∧
    (ack < r.client_seq → (reconcile_with_server_ack q task ack)[i]? = some r) := by
  have hi : i < q.length := by
    rcases List.getElem?_eq_some_iff.mp hr with ⟨hlen, -⟩
    exact hlen
  refine ⟨?_, ?_, ?_, ?_, ?_, ?_⟩
  · unfold enqueue
    split
    · exact hr
    · rw [List.getElem?_append_left hi]
      exact hr
  · apply map_getElem?_of_fix _ _ _ _ hr
    rw [if_neg]
    rintro ⟨-, -, h1 | h1 | h1⟩ <;> rw [h] at h1 <;> cases h1
  · exact mark_failed_fix_not_pending q task err seqs i r hr
      (by rw [h]; intro hc; cases hc)
  · apply map_getElem?_of_fix _ _ _ _ hr
    rw [if_neg]
    rintro ⟨-, h1⟩
    rw [h] at h1
    cases h1
  · apply map_getElem?_of_fix _ _ _ _ hr
    rw [if_neg]
    rintro ⟨-, h1 | h1 | h1⟩ <;> rw [h] at h1 <;> cases h1
  · intro hack
    unfold reconcile_with_server_ack
    apply map_getElem?_of_fix
    · apply map_getElem?_of_fix _ _ _ _ hr
      rw [if_neg]
      rintro ⟨-, h1⟩
      omega
    · rw [if_neg]
      rintro ⟨-, -, h1⟩
      rw [h] at h1
      cases h1

/-- C3 witness: the amended preservation evaluated on a concrete queue
with one archived row above the acknowledgement. -/
theorem archived_terminal_amended_witness :
    (mark_sent_up_to [(⟨"t", "u", 2, [], .archived, 0, none⟩ : LogRow)]
        "t" 5)[0]? = some (⟨"t", "u", 2, [], .archived, 0, none⟩ : LogRow) ∧
    (reconcile_with_server_ack
        [(⟨"t", "u", 2, [], .archived, 0, none⟩ : LogRow)] "t" 1)[0]? =
      some (⟨"t", "u", 2, [], .archived, 0, none⟩ : LogRow) := by
  have h := archived_terminal_amended
    [(⟨"t", "u", 2, [], .archived, 0, none⟩ : LogRow)] "t" "u" "e" "rsn"
    3 5 [2] [] .pending 0 (⟨"t", "u", 2, [], .archived, 0, none⟩ : LogRow)
    rfl rfl
  have h' := archived_terminal_amended
    [(⟨"t", "u", 2, [], .archived, 0, none⟩ : LogRow)] "t" "u" "e" "rsn"
    3 1 [2] [] .pending 0 (⟨"t", "u", 2, [], .archived, 0, none⟩ : LogRow)
    rfl rfl
  exact ⟨h.2.1, h'.2.2.2.2.2 (by decide)⟩

/-- `mark_sent_up_to` never demotes: a row that is `sent` stays `sent`
under any further `mark_sent_up_to`. -/
theorem mark_sent_up_to_keeps_sent (q : LogQueue) (task : String) (b : Int)
    (i : Nat) (r : LogRow) (hr : q[i]? = some r) (h : r.status = .sent) :
    ((mark_sent_up_to q task b)[i]?.map (fun x => x.status)) = some .sent := by
  unfold mark_sent_up_to
  rw [List.getElem?_map, hr]
  simp only [Option.map_some']
  split
  · rfl
  · rw [h]

/-- C9: `mark_sent_up_to` is monotonic — after acknowledging up to `a`,
a later call with any `b < a` leaves every row that was `sent` still
`sent`; no row regresses to `pending` (only
`reconcile_with_server_ack` can demote `sent` rows). -/
theorem mark_sent_up_to_monotonic (q : LogQueue) (task : String) (a b : Int)
    (hba : b < a) (i : Nat)
    (h : ((mark_sent_up_to q task a)[i]?.map (fun x => x.status)) =
      some .sent) :
    ((mark_sent_up_to (mark_sent_up_to q task a) task b)[i]?.map
      (fun x => x.status)) = some .sent := by
  rcases hq : (mark_sent_up_to q task a)[i]? with - | r
  · rw [hq] at h
    cases h
  · rw [hq] at h
    simp only [Option.map_some', Option.some.injEq] at h
    exact mark_sent_up_to_keeps_sent _ task b i r hq h

/-- C9 witness: monotonicity evaluated on a one-row queue acknowledged
up to 3 and then re-acknowledged up to 1. -/
theorem mark_sent_up_to_monotonic_witness :
    ((mark_sent_up_to
        (mark_sent_up_to [(⟨"t", "u", 2, [], .pending, 0, none⟩ : LogRow)]
          "t" 3) "t" 1)[0]?.map (fun x => x.status)) = some .sent := by
  exact mark_sent_up_to_monotonic
    [(⟨"t", "u", 2, [], .pending, 0, none⟩ : LogRow)] "t" 3 1 (by omega) 0
    (by decide)

/-- C10: `mark_failed` mutates only rows of the given task that are
currently `pending` with a listed `client_seq`; every other row —
including rows already `sent`, `failed` or `archived` — is left entirely
unchanged (status, retry count and last error included). -/
theorem mark_failed_frame (q : LogQueue) (task err : String)
    (seqs : List Int) (i : Nat) (r : LogRow) (hr : q[i]? = some r)
    (h : ¬(r.task_id = task ∧ r.status = .pending ∧ r.client_seq ∈ seqs)) :
    (mark_failed q task seqs err)[i]? = some r := by
  induction seqs generalizing q with
  | nil => exact hr
  | cons s ss ih =>
      have hstep : (mark_failed_one task err q s)[i]? = some r := by
        apply map_getElem?_of_fix _ _ _ _ hr
        rw [if_neg]
        rintro ⟨h1, h2, h3⟩
        exact h ⟨h1, h3, by rw [h2]; exact List.mem_cons_self s ss⟩
      apply ih _ hstep
      rintro ⟨h1, h2, h3⟩
      exact h ⟨h1, h2, List.mem_cons_of_mem s h3⟩

/-- C10 witness: the frame condition evaluated on a queue with a `sent`
row of the same task and listed sequence, and a `pending` row of another
task. -/
theorem mark_failed_frame_witness :
    (mark_failed [(⟨"t", "u", 1, [], .sent, 0, none⟩ : LogRow),
        (⟨"s", "u", 1, [], .pending, 0, none⟩ : LogRow)] "t" [1, 2]
      "err")[0]? = some (⟨"t", "u", 1, [], .sent, 0, none⟩ : LogRow) ∧
    (mark_failed [(⟨"t", "u", 1, [], .sent, 0, none⟩ : LogRow),
        (⟨"s", "u", 1, [], .pending, 0, none⟩ : LogRow)] "t" [1, 2]
      "err")[1]? = some (⟨"s", "u", 1, [], .pending, 0, none⟩ : LogRow) := by
  constructor
  · exact mark_failed_frame _ "t" "err" [1, 2] 0 _ rfl (by decide)
  · exact mark_failed_frame _ "t" "err" [1, 2] 1 _ rfl (by decide)

/-- C4: reaching `task_deleted` does make every later transition attempt
fail — the state never changes again — but the no-HTTP half of the claim
is broken by the code: `_mark_transport_success` syncs the events to
`online` even when its transition is rejected, so a transport success
reported after `task_deleted` (e.g. by the event reporter's
`send_event`) clears the `_offline` and `_task_deleted` events, after
which `_send_heartbeat` and `_flush_batch` pass their gates and issue
HTTP requests while the state is still `task_deleted`.  Right after the
409 both were correctly suppressed. -/
theorem task_deleted_http_gate_bug :
    (apply_notices "t" (initUpState 5, []) [.deleted_response]).1.transport =
      .task_deleted ∧
    send_heartbeat_issues_http
      (apply_notices "t" (initUpState 5, []) [.deleted_response]).1 = false ∧
    flush_batch_issues_http
      (apply_notices "t" (initUpState 5, []) [.deleted_response]).1
      0 true 1 0 100 5000 = false ∧
    (apply_notices "t" (initUpState 5, [])
      [.deleted_response, .success]).1.transport = .task_deleted ∧
    send_heartbeat_issues_http
      (apply_notices "t" (initUpState 5, [])
        [.deleted_response, .success]).1 = true ∧
    flush_batch_issues_http
      (apply_notices "t" (initUpState 5, [])
        [.deleted_response, .success]).1 0 true 1 0 100 5000 = true := by
  decide

/-- C6 counterexample: from a fresh uploader with give-up bound 1, one
heartbeat failure reaches `offline_giveup`; a subsequent transport
success moves the state machine out of it, to `online` — so
`offline_giveup` is not absorbing. -/
theorem offline_giveup_absorbing_cex :
    (apply_notices "t" (initUpState 1, []) [.heartbeat_failure 0]).1.transport =
      .offline_giveup ∧
    (apply_notices "t" (initUpState 1, [])
      [.heartbeat_failure 0, .success]).1.transport = .online := by
  decide

/-- C6 (amended): in `offline_giveup`, every retryable-failure
notification (heartbeat, resume, batch upload, event report) leaves the
state unchanged, but a transport-success notification returns the state
to `online` and a 409 task-deleted notification moves it to
`task_deleted`. -/
theorem offline_giveup_amended (s : UpState) (q : LogQueue) (task : String)
    (now : Nat) (h : s.transport = .offline_giveup) :
    (apply_notice task (s, q) (.heartbeat_failure now)).1.transport =
      .offline_giveup ∧
    (apply_notice task (s, q) (.resume_failure now)).1.transport =
      .offline_giveup ∧
    (apply_notice task (s, q) (.batch_upload_failure now)).1.transport =
      .offline_giveup ∧
    (apply_notice task (s, q) (.event_report_failure now)).1.transport =
      .offline_giveup ∧
    (apply_notice task (s, q) .success).1.transport = .online ∧
    (apply_notice task (s, q) .deleted_response).1.transport =
      .task_deleted := by
  refine ⟨?_, ?_, ?_, ?_, ?_, ?_⟩ <;>
    simp [apply_notice, mark_retryable_failure, mark_transport_success,
      abandon_task_push, set_transport_state, sync_state_events, h]

/-- C6 witness: the amended behaviour evaluated at a concrete
`offline_giveup` state. -/
theorem offline_giveup_amended_witness :
    (apply_notice "t"
      ((apply_notices "t" (initUpState 1, []) [.heartbeat_failure 0]).1, [])
      (.heartbeat_failure 3)).1.transport = .offline_giveup := by
  exact (offline_giveup_amended
    (apply_notices "t" (initUpState 1, []) [.heartbeat_failure 0]).1 [] "t" 3
    (by decide)).1

/-- Closed-form description of `_mark_retryable_failure` outside the
gated states: it enters `retrying` (or `offline_giveup` when a counted
failure reaches the bound), schedules the next retry after the current
backoff, doubles the backoff up to the cap, and bumps the counter only
for counted failures. -/
theorem mark_retryable_failure_spec (s : UpState) (now : Nat) (c : Bool)
    (h1 : s.transport ≠ .offline_giveup) (h2 : s.transport ≠ .task_deleted) :
    mark_retryable_failure now c s =
      if c = true ∧ s.circuit_max ≤ s.circuit_count + 1 then
        { s with transport := .offline_giveup, ev_transient := true,
                 ev_offline := true, ev_deleted := false,
                 circuit_count := s.circuit_count + 1,
                 next_retry_at := now + s.retry_backoff,
                 retry_backoff :=
                   min (s.retry_backoff * 2) RETRY_BACKOFF_MAX_SECONDS }
      else
        { s with transport := .retrying, ev_transient := true,
                 ev_offline := false, ev_deleted := false,
                 circuit_count := s.circuit_count + (if c then 1 else 0),
                 next_retry_at := now + s.retry_backoff,
                 retry_backoff :=
                   min (s.retry_backoff * 2) RETRY_BACKOFF_MAX_SECONDS } := by
  obtain ⟨t, e1, e2, e3, cc, cm, rb, nr, la, ns⟩ := s
  simp only [ne_eq] at h1 h2
  cases t with
  | offline_giveup => simp at h1
  | task_deleted => simp at h2
  | online =>
      cases c with
      | false =>
          simp [mark_retryable_failure, set_transport_state,
            sync_state_events]
      | true =>
          simp only [mark_retryable_failure, set_transport_state,
            sync_state_events, enter_offline]
          norm_num
          split <;> simp_all
  | retrying =>
      cases c with
      | false =>
          simp [mark_retryable_failure, set_transport_state,
            sync_state_events]
      | true =>
          simp only [mark_retryable_failure, set_transport_state,
            sync_state_events, enter_offline]
          norm_num
          split <;> simp_all

/-- Closed-form description of `_mark_transport_success`: the transition
to `online` is rejected only from `task_deleted`, but the events,
counter, retry deadline and backoff are reset unconditionally. -/
theorem mark_transport_success_spec (s : UpState) :
    mark_transport_success s =
      { s with
        transport := if s.transport = .task_deleted then .task_deleted
                     else .online,
        ev_transient := false, ev_offline := false, ev_deleted := false,
        circuit_count := 0, next_retry_at := 0,
        retry_backoff := RETRY_BACKOFF_BASE_SECONDS } := by
  obtain ⟨t, e1, e2, e3, cc, cm, rb, nr, la, ns⟩ := s
  cases t <;>
    simp [mark_transport_success, set_transport_state, sync_state_events]

/-- C5: only heartbeat and resume-probe failures advance the give-up
counter — a batch-upload (or event-report) retryable failure enters
`retrying` and advances the backoff but leaves the counter unchanged;
once the counter of consecutive counted failures reaches the bound
(default `UPLOAD_CIRCUIT_BREAK_MAX = 5`) the state becomes
`offline_giveup`; and any transport success resets the counter to
zero. -/
theorem giveup_counter_policy (s : UpState) (q : LogQueue) (task : String)
    (now : Nat) (h1 : s.transport ≠ .offline_giveup)
    (h2 : s.transport ≠ .task_deleted) :
    ((apply_notice task (s, q) (.batch_upload_failure now)).1.circuit_count =
      s.circuit_count) ∧
    ((apply_notice task (s, q) (.batch_upload_failure now)).1.transport =
      .retrying) ∧
    ((apply_notice task (s, q) (.batch_upload_failure now)).1.next_retry_at =
      now + s.retry_backoff) ∧
    ((apply_notice task (s, q) (.batch_upload_failure now)).1.retry_backoff =
      min (s.retry_backoff * 2) RETRY_BACKOFF_MAX_SECONDS) ∧
    ((apply_notice task (s, q) (.event_report_failure now)).1.circuit_count =
      s.circuit_count) ∧
    ((apply_notice task (s, q) (.heartbeat_failure now)).1.circuit_count =
      s.circuit_count + 1) ∧
    ((apply_notice task (s, q) (.resume_failure now)).1.circuit_count =
      s.circuit_count + 1) ∧
    (s.circuit_max ≤ s.circuit_count + 1 →
      (apply_notice task (s, q) (.heartbeat_failure now)).1.transport =
        .offline_giveup) ∧
    (s.circuit_count + 1 < s.circuit_max →
      (apply_notice task (s, q) (.heartbeat_failure now)).1.transport =
        .retrying) ∧
    ((apply_notice task (s, q) .success).1.circuit_count = 0) ∧
    UPLOAD_CIRCUIT_BREAK_MAX = 5 := by
  have hf := mark_retryable_failure_spec s now false h1 h2
  have ht := mark_retryable_failure_spec s now true h1 h2
  have hs := mark_transport_success_spec s
  refine ⟨?_, ?_, ?_, ?_, ?_, ?_, ?_, ?_, ?_, ?_, rfl⟩
  · simp only [apply_notice, hf]
    rw [if_neg (by simp)]
    simp
  · simp only [apply_notice, hf]
    rw [if_neg (by simp)]
  · simp only [apply_notice, hf]
    rw [if_neg (by simp)]
  · simp only [apply_notice, hf]
    rw [if_neg (by simp)]
  · simp only [apply_notice, hf]
    rw [if_neg (by simp)]
    simp
  · simp only [apply_notice, ht]
    split <;> simp
  · simp only [apply_notice, ht]
    split <;> simp
  · intro h
    simp only [apply_notice, ht]
    rw [if_pos ⟨by trivial, h⟩]
  · intro h
    simp only [apply_notice, ht]
    rw [if_neg]
    rintro ⟨-, hh⟩
    omega
  · simp only [apply_notice, hs]

/-- C5 witness: the counter policy evaluated at a fresh uploader state
with the default bound. -/
theorem giveup_counter_policy_witness :
    (apply_notice "t" (initUpState 5, []) (.batch_upload_failure
      7)).1.circuit_count = 0 ∧
    (apply_notice "t" (initUpState 5, [])
      (.heartbeat_failure 7)).1.circuit_count = 1 := by
  have h := giveup_counter_policy (initUpState 5) [] "t" 7 (by decide)
    (by decide)
  exact ⟨h.1, h.2.2.2.2.2.1⟩

/-- C8: a retryable failure (in a state that is neither `offline_giveup`
nor `task_deleted`) schedules the next retry after the current backoff
and doubles the backoff up to the 60-second cap; the resulting backoff
never exceeds the cap; any `ok` resets the backoff to the 5-second base
and (the state not being `task_deleted`) returns the state to `online`;
the fresh uploader starts at the base, so the delay used on first
entering `retrying` is 5 seconds. -/
theorem backoff_policy (s : UpState) (now : Nat) (c : Bool) (cmax : Nat)
    (h1 : s.transport ≠ .offline_giveup) (h2 : s.transport ≠ .task_deleted) :
    ((mark_retryable_failure now c s).next_retry_at =
      now + s.retry_backoff) ∧
    ((mark_retryable_failure now c s).retry_backoff =
      min (s.retry_backoff * 2) RETRY_BACKOFF_MAX_SECONDS) ∧
    ((mark_retryable_failure now c s).retry_backoff ≤
      RETRY_BACKOFF_MAX_SECONDS) ∧
    ((mark_transport_success s).retry_backoff =
      RETRY_BACKOFF_BASE_SECONDS) ∧
    ((mark_transport_success s).transport = .online) ∧
    ((initUpState cmax).retry_backoff = RETRY_BACKOFF_BASE_SECONDS) ∧
    RETRY_BACKOFF_BASE_SECONDS = 5 ∧ RETRY_BACKOFF_MAX_SECONDS = 60 := by
  have hf := mark_retryable_failure_spec s now c h1 h2
  have hs := mark_transport_success_spec s
  refine ⟨?_, ?_, ?_, ?_, ?_, rfl, rfl, rfl⟩
  · rw [hf]
    split <;> simp
  · rw [hf]
    split <;> simp
  · rw [hf]
    split <;> simp [RETRY_BACKOFF_MAX_SECONDS]
  · rw [hs]
  · rw [hs]
    simp only
    rw [if_neg h2]

/-- C8 witness: the backoff policy evaluated at a fresh uploader state
(first delay 5 seconds, backoff doubles to 10). -/
theorem backoff_policy_witness :
    (mark_retryable_failure 100 false (initUpState 5)).next_retry_at = 105 ∧
    (mark_retryable_failure 100 false (initUpState 5)).retry_backoff = 10 := by
  have h := backoff_policy (initUpState 5) 100 false 5 (by decide) (by decide)
  exact ⟨h.1, by rw [h.2.1]; decide⟩

/-- A mapped UPDATE that changes only statuses leaves the per-task
sequence column unchanged. -/
theorem filter_map_client_seq (q : LogQueue) (f : LogRow → LogRow)
    (hf : ∀ r, (f r).task_id = r.task_id ∧ (f r).client_seq = r.client_seq)
    (task : String) :
    (((q.map f).filter fun r => r.task_id == task).map
        (fun r => r.client_seq)) =
      ((q.filter fun r => r.task_id == task).map (fun r => r.client_seq)) := by
  induction q with
  | nil => rfl
  | cons r rs ih =>
      simp only [List.map_cons, List.filter_cons, (hf r).1]
      split
      · simp only [List.map_cons, (hf r).2, ih]
      · exact ih

/-- `reconcile_with_server_ack` preserves the greatest stored
`client_seq` of every task. -/
theorem max_client_seq_reconcile (q : LogQueue) (task task2 : String)
    (ack : Int) :
    max_client_seq (reconcile_with_server_ack q task ack) task2 =
      max_client_seq q task2 := by
  unfold max_client_seq reconcile_with_server_ack
  rw [filter_map_client_seq, filter_map_client_seq]
  · intro r
    split <;> simp
  · intro r
    split <;> simp

/-- C7: in `_resume_from_server_ack`, an `ok` response takes
`last_ack_seq` from the payload (a missing, falsy or unparseable value
defaulting to 0), reconciles the queue with it, and sets the next
sequence number to `max(last_ack_seq + 1, local_max + 1)` where
`local_max` is the greatest `client_seq` stored for the task; an HTTP
404 response is treated as `last_ack_seq = 0` (the startup value) and
does not trigger a retryable-failure notification. -/
theorem resume_protocol (s : UpState) (q : LogQueue) (task : String)
    (body : Option AckPayload) (code : Nat) (now : Nat)
    (hoff : s.ev_offline = false) (hdel : s.ev_deleted = false) :
    ((200 ≤ code ∧ code < 300) →
      (resume_from_server_ack s q task (.response code body) now).2.1 =
        reconcile_with_server_ack q task (extract_ack body) ∧
      (resume_from_server_ack s q task
          (.response code body) now).1.last_ack_seq =
        extract_ack body ∧
      (resume_from_server_ack s q task (.response code body) now).1.next_seq =
        max (extract_ack body + 1) (max_client_seq q task + 1) ∧
      (resume_from_server_ack s q task (.response code body) now).2.2 =
        false) ∧
    (s.last_ack_seq = 0 →
      (resume_from_server_ack s q task (.response 404 body) now).2.1 =
        reconcile_with_server_ack q task 0 ∧
      (resume_from_server_ack s q task (.response 404 body) now).1.next_seq =
        max 1 (max_client_seq q task + 1) ∧
      (resume_from_server_ack s q task (.response 404 body) now).2.2 =
        false) := by
  constructor
  · rintro ⟨hlo, hhi⟩
    have hclass : get_json_status (HttpOutcome.response code body) =
        (.ok, body, code) := by
      simp only [get_json_status, post_json_status_with_response]
      rw [if_neg (by omega), if_pos ⟨hlo, hhi⟩]
    have hre : resume_from_server_ack s q task (.response code body) now =
        resume_apply s q task .ok body code now := by
      unfold resume_from_server_ack
      rw [hoff, hdel, hclass]
      rfl
    rw [hre]
    have hst : (resume_state s .ok body code now).last_ack_seq =
        extract_ack body := rfl
    refine ⟨rfl, ?_, ?_, rfl⟩
    · show (resume_state s .ok body code now).last_ack_seq = extract_ack body
      exact hst
    · show get_next_seq
        (reconcile_with_server_ack q task
          (resume_state s .ok body code now).last_ack_seq) task
        ((resume_state s .ok body code now).last_ack_seq + 1) =
        max (extract_ack body + 1) (max_client_seq q task + 1)
      rw [hst]
      unfold get_next_seq
      rw [max_client_seq_reconcile]
      exact max_comm _ _
  · intro hls
    have hclass : get_json_status (HttpOutcome.response 404 body) =
        (.retryable_fail, none, 404) := by
      simp only [get_json_status, post_json_status_with_response]
      rw [if_neg (by omega), if_neg (by omega)]
    have hre : resume_from_server_ack s q task (.response 404 body) now =
        resume_apply s q task .retryable_fail none 404 now := by
      unfold resume_from_server_ack
      rw [hoff, hdel, hclass]
      rfl
    rw [hre]
    have hst : (resume_state s .retryable_fail none 404 now).last_ack_seq =
        s.last_ack_seq := rfl
    refine ⟨?_, ?_, rfl⟩
    · show reconcile_with_server_ack q task
        (resume_state s .retryable_fail none 404 now).last_ack_seq =
        reconcile_with_server_ack q task 0
      rw [hst, hls]
    · show get_next_seq
        (reconcile_with_server_ack q task
          (resume_state s .retryable_fail none 404 now).last_ack_seq) task
        ((resume_state s .retryable_fail none 404 now).last_ack_seq + 1) =
        max 1 (max_client_seq q task + 1)
      rw [hst, hls]
      unfold get_next_seq
      rw [max_client_seq_reconcile, max_comm]
      norm_num

/-- C7 witness: the resume protocol evaluated at a fresh uploader with a
stored row of sequence 3 and an `ok` response acknowledging 1, and at a
404 response. -/
theorem resume_protocol_witness :
    (resume_from_server_ack (initUpState 5)
        [(⟨"t", "u", 3, [], .pending, 0, none⟩ : LogRow)] "t"
        (.response 200 (some ⟨some 1⟩)) 0).1.next_seq = 4 ∧
    (resume_from_server_ack (initUpState 5)
        [(⟨"t", "u", 3, [], .pending, 0, none⟩ : LogRow)] "t"
        (.response 404 none) 0).2.2 = false := by
  have h := resume_protocol (initUpState 5)
    [(⟨"t", "u", 3, [], .pending, 0, none⟩ : LogRow)] "t"
    (some ⟨some 1⟩) 200 0 rfl rfl
  have h404 := resume_protocol (initUpState 5)
    [(⟨"t", "u", 3, [], .pending, 0, none⟩ : LogRow)] "t" none 404 0 rfl rfl
  constructor
  · rw [(h.1 (by omega)).2.2.1]
    decide
  · exact (h404.2 rfl).2.2
